import Mathlib

/-!
# Verification of the blockrush load-generation core

Shallow embedding of the blockrush blockchain load tester (Go) into Lean 4.

The embedded functions mirror the Go source (`internal/transaction.go`,
`internal/sender.go`, `internal/config.go`, `internal/runner.go`,
`internal/test.go`) definition by definition.  External capabilities of the
go-ethereum client (fee estimation, signing, receipt/block fetch, ABI
parse/pack, hex-address decoding) are modelled as record fields that the
theorems quantify over; everything computed by blockrush itself is translated
directly.

Conventions:
* Go `uint64` values are `Nat` with explicit `% 2^64` where wrap-around can
  occur (`u64sub`, accumulator updates, integer casts).
* Go `int` configuration values are `Int`; Go integer division (truncation
  toward zero) is written `Int.tdiv` explicitly.
* `log.Fatal` / runtime panics (nil-pointer dereference, division by zero,
  negative `make`) are `Option.none` results.
* Errors returned to callers are `Except String`.
-/

set_option autoImplicit false
set_option linter.unusedVariables false

namespace Blockrush

/-- `2^64`, the modulus of Go's `uint64` arithmetic. -/
def U64 : Nat := 2 ^ 64

/-- Go `uint64` subtraction `a - b`: wraps modulo `2^64`. -/
def u64sub (a b : Nat) : Nat :=
  (a % U64 + (U64 - b % U64)) % U64

/-- Go `uint64(x)` conversion of a signed integer: wraps modulo `2^64`. -/
def u64ofInt (x : Int) : Nat :=
  (x % (U64 : Int)).toNat

/-! ## Data model (structs from `transaction.go` / `sender.go` / `test.go`) -/

/-- `types.DynamicFeeTx`: the unsigned EIP-1559 transaction body filled in by
`CreateAndSignTransaction`.  Only the fields the source writes are kept. -/
structure DynamicFeeTx where
  nonce : Nat
  toAddr : String
  value : Int
  gasFeeCap : Int
  gasTipCap : Int
  data : List Nat
  gas : Nat
  deriving Repr, DecidableEq

/-- A signed transaction as produced by the external `types.SignTx`
capability: the body is preserved, a signature token is attached. -/
structure SignedTx where
  tx : DynamicFeeTx
  sig : Nat
  deriving Repr, DecidableEq

/-- `types.Receipt`: the network-confirmed outcome of a transaction
(only the fields `CollectMetrics` / `CollectData` read). -/
structure Receipt where
  blockNumber : Nat
  status : Nat
  effectiveGasPrice : Int
  blockHash : String
  deriving Repr, DecidableEq

/-- `internal.Transaction` (`transaction.go`): a built artifact with its
mutable receipt slot and submission bookkeeping. -/
structure Transaction where
  clientTransaction : Option SignedTx
  receipt : Option Receipt
  sender : String
  status : Bool
  sentBlock : Nat
  minedBlock : Nat
  sentTimestamp : Int
  deriving Repr, DecidableEq

/-- `internal.Sender` (`sender.go`): a signing identity.  The key material
lives with the external signer capability; the address and the nonce counter
are what the core manipulates. -/
structure Sender where
  address : String
  nonce : Nat
  deriving Repr, DecidableEq

/-- A fetched `types.Block` (only the fields the metrics read). -/
structure Block where
  number : Nat
  txCount : Nat
  gasUsed : Nat
  time : Nat
  deriving Repr, DecidableEq

/-! ## External capabilities (the ethclient / signer / ABI encoder) -/

/-- Tag of a go-ethereum `abi.Type` (`input.Type.T`), as switched on by
`convertParams`. -/
inductive AbiType where
  | address
  | uintTy
  | intTy
  | boolTy
  | stringTy
  | other (name : String)
  deriving Repr, DecidableEq

/-- A loosely-typed configuration parameter (Go `interface{}` from YAML). -/
inductive ParamValue where
  | str (s : String)
  | boolean (b : Bool)
  | otherVal
  deriving Repr, DecidableEq

/-- A converted, strongly-typed ABI argument produced by `convertParams`. -/
inductive AbiValue where
  | addr (a : String)
  | bigInt (i : Int)
  | boolean (b : Bool)
  | str (s : String)
  deriving Repr, DecidableEq

/-- An `abi.Method`: the declared input types (all `convertParams` uses). -/
structure Method where
  inputs : List AbiType
  deriving Repr, DecidableEq

/-- A parsed `abi.ABI`: its method table. -/
structure ParsedABI where
  methods : List (String × Method)
  deriving Repr, DecidableEq

/-- The external node/signer capabilities consumed by the transaction
builder and the nonce manager (`ethclient.Client` plus `types.SignTx`). -/
structure Client where
  suggestGasTipCap : Except String Int
  suggestGasPrice : Except String Int
  estimateGas : String → String → List Nat → Except String Nat
  signTx : DynamicFeeTx → Except String Nat
  pendingNonceAt : String → Except String Nat

/-- The external ABI/address capabilities of go-ethereum consumed by
`SignTransactions` / `convertParams`. -/
structure Env where
  hexToAddress : String → String
  abiJSON : String → Except String ParsedABI
  abiPack : String → List AbiValue → Except String (List Nat)

/-! ## Identity / nonce manager (`sender.go`) -/

/-- `Sender.defineCurrentSenderNonce`: fetch the pending nonce from the
network once and store it on the sender. -/
def defineCurrentSenderNonce (client : Client) (sender : Sender) :
    Except String Sender :=
  match client.pendingNonceAt sender.address with
  | .error _ => .error ("failed to retrieve nonce for address " ++ sender.address)
  | .ok nonce => .ok { sender with nonce := nonce }

/-! ## Request builder (`transaction.go`) -/

/-- `CreateAndSignTransaction`: build an EIP-1559 transaction carrying the
sender's current nonce, estimate gas, sign, and advance the nonce.
`none` models the `log.Fatal` aborts on estimation failure.  Note that the
Go code discards the error returned by `types.SignTx` (models as a `none`
`clientTransaction`) and still increments the nonce and returns a nil
error. -/
def CreateAndSignTransaction (client : Client) (chainId : Int) (sender : Sender)
    (receiver : String) (valueToSend : Int) (data : List Nat) :
    Option (Transaction × Sender) :=
  match client.suggestGasTipCap with
  | .error _ => none
  | .ok tipCap =>
    match client.suggestGasPrice with
    | .error _ => none
    | .ok feeCap =>
      let dynTx : DynamicFeeTx :=
        { nonce := sender.nonce, toAddr := receiver, value := valueToSend,
          gasFeeCap := feeCap, gasTipCap := tipCap,
          data := if data.length != 0 then data else [], gas := 0 }
      match client.estimateGas sender.address receiver data with
      | .error _ => none
      | .ok gasLimit =>
        let dynTx := { dynTx with gas := gasLimit }
        let signedTx : Option SignedTx :=
          match client.signTx dynTx with
          | .ok sig => some { tx := dynTx, sig := sig }
          | .error _ => none
        some ({ clientTransaction := signedTx, receipt := none,
                sender := sender.address, status := false,
                sentBlock := 0, minedBlock := 0, sentTimestamp := 0 },
              { sender with nonce := sender.nonce + 1 })

/-- `CreateAndSignTransaction` preserves the sender's address, advances the
nonce by exactly one, and stamps the consumed nonce (and the transfer value)
into the signed body whenever signing succeeded. -/
theorem CreateAndSignTransaction_step (client : Client) (chainId : Int)
    (s : Sender) (recv : String) (v : Int) (d : List Nat) (tx : Transaction)
    (s' : Sender)
    (h : CreateAndSignTransaction client chainId s recv v d = some (tx, s')) :
    s'.address = s.address ∧ s'.nonce = s.nonce + 1 ∧ tx.receipt = none ∧
      ∀ st, tx.clientTransaction = some st →
        st.tx.nonce = s.nonce ∧ st.tx.value = v := by
  unfold CreateAndSignTransaction at h
  cases htip : client.suggestGasTipCap with
  | error e => rw [htip] at h; exact absurd h (by simp)
  | ok tipCap =>
    rw [htip] at h
    cases hfee : client.suggestGasPrice with
    | error e => rw [hfee] at h; exact absurd h (by simp)
    | ok feeCap =>
      rw [hfee] at h
      cases hest : client.estimateGas s.address recv d with
      | error e => rw [hest] at h; exact absurd h (by simp)
      | ok gasLimit =>
        rw [hest] at h
        simp only [Option.some.injEq, Prod.mk.injEq] at h
        obtain ⟨htx, hs⟩ := h
        refine ⟨by rw [← hs], by rw [← hs], by rw [← htx], ?_⟩
        intro st hst
        rw [← htx] at hst
        simp only at hst
        cases hsig : client.signTx _ with
        | ok sig =>
          rw [hsig] at hst
          simp only [Option.some.injEq] at hst
          rw [← hst]
          exact ⟨rfl, rfl⟩
        | error e => rw [hsig] at hst; exact absurd hst (by simp)

/-- When the external signer always succeeds, the built artifact actually
carries a signed transaction. -/
theorem CreateAndSignTransaction_signed (client : Client) (chainId : Int)
    (s : Sender) (recv : String) (v : Int) (d : List Nat) (tx : Transaction)
    (s' : Sender)
    (hsign : ∀ dt, ∃ sg, client.signTx dt = .ok sg)
    (h : CreateAndSignTransaction client chainId s recv v d = some (tx, s')) :
    tx.clientTransaction.isSome := by
  unfold CreateAndSignTransaction at h
  cases htip : client.suggestGasTipCap with
  | error e => rw [htip] at h; exact absurd h (by simp)
  | ok tipCap =>
    rw [htip] at h
    cases hfee : client.suggestGasPrice with
    | error e => rw [hfee] at h; exact absurd h (by simp)
    | ok feeCap =>
      rw [hfee] at h
      cases hest : client.estimateGas s.address recv d with
      | error e => rw [hest] at h; exact absurd h (by simp)
      | ok gasLimit =>
        rw [hest] at h
        simp only [Option.some.injEq, Prod.mk.injEq] at h
        obtain ⟨htx, _⟩ := h
        obtain ⟨sg, hsg⟩ := hsign
          { nonce := s.nonce, toAddr := recv, value := v, gasFeeCap := feeCap,
            gasTipCap := tipCap, data := if d.length != 0 then d else [],
            gas := gasLimit }
        rw [← htx]
        simp only [hsg]
        rfl

/-! ## The `senderTransactions` map (`map[string][]*Transaction`) -/

/-- Go map read `m[key]`: a missing key yields the nil slice. -/
def mapGet : List (String × List Transaction) → String → List Transaction
  | [], _ => []
  | e :: rest, k => if e.1 = k then e.2 else mapGet rest k

/-- Go `m[key] = append(m[key], tx)`: append to the key's slice, creating the
entry when absent. -/
def mapAppend : List (String × List Transaction) → String → Transaction →
    List (String × List Transaction)
  | [], k, tx => [(k, [tx])]
  | e :: rest, k, tx =>
    if e.1 = k then (e.1, e.2 ++ [tx]) :: rest else e :: mapAppend rest k tx

theorem mapGet_mapAppend_same (m : List (String × List Transaction))
    (k : String) (tx : Transaction) :
    mapGet (mapAppend m k tx) k = mapGet m k ++ [tx] := by
  induction m with
  | nil => simp [mapGet, mapAppend]
  | cons e rest ih =>
    by_cases h : e.1 = k <;> simp [mapGet, mapAppend, h, ih]

theorem mapGet_mapAppend_ne (m : List (String × List Transaction))
    (k k' : String) (tx : Transaction) (h : k' ≠ k) :
    mapGet (mapAppend m k tx) k' = mapGet m k' := by
  have hne : ¬(k = k') := fun hh => h hh.symm
  induction m with
  | nil => simp [mapGet, mapAppend, hne]
  | cons e rest ih =>
    by_cases he : e.1 = k
    · have hne' : ¬(e.1 = k') := by rw [he]; exact hne
      simp [mapGet, mapAppend, he, hne, hne']
    · by_cases he' : e.1 = k' <;> simp [mapGet, mapAppend, he, he', ih, h]

theorem mem_mapGet_mapAppend (m : List (String × List Transaction))
    (k key : String) (tx tx0 : Transaction)
    (h : tx ∈ mapGet (mapAppend m k tx0) key) :
    tx ∈ mapGet m key ∨ tx = tx0 := by
  by_cases hk : key = k
  · subst hk
    rw [mapGet_mapAppend_same] at h
    rcases List.mem_append.mp h with h1 | h1
    · exact Or.inl h1
    · exact Or.inr (List.mem_singleton.mp h1)
  · rw [mapGet_mapAppend_ne m k key tx0 hk] at h
    exact Or.inl h

/-- The sequence of nonces carried by a list of built artifacts
(`none` for an artifact whose signing silently failed). -/
def noncesOf (txs : List Transaction) : List (Option Nat) :=
  txs.map (fun tx => tx.clientTransaction.map (fun st => st.tx.nonce))

/-! ## Per-sender signing loop (`Test.SignTransactions`, inner `j` loop) -/

/-- The inner loop of `Test.SignTransactions` for one sender: build and sign
`j` transactions, appending each to the sender's slice of the
`senderTransactions` map.  `none` models the fatal aborts of
`CreateAndSignTransaction`. -/
def signSenderLoop (client : Client) (chainId : Int) (receiver : String)
    (v : Int) (data : List Nat) :
    Sender → Nat → List (String × List Transaction) →
    Option (Sender × List (String × List Transaction))
  | sender, 0, m => some (sender, m)
  | sender, j + 1, m =>
    match CreateAndSignTransaction client chainId sender receiver v data with
    | none => none
    | some (tx, s') =>
      signSenderLoop client chainId receiver v data s' j
        (mapAppend m sender.address tx)

/-- State evolution of the per-sender loop: address constant, nonce advanced
by exactly the number of builds, the sender's slice grown by that number,
all other keys untouched. -/
theorem signSenderLoop_state (client : Client) (chainId : Int)
    (receiver : String) (v : Int) (data : List Nat) :
    ∀ (k : Nat) (s s' : Sender) (m m' : List (String × List Transaction)),
      signSenderLoop client chainId receiver v data s k m = some (s', m') →
      s'.address = s.address ∧ s'.nonce = s.nonce + k ∧
        (mapGet m' s.address).length = (mapGet m s.address).length + k ∧
        ∀ key, key ≠ s.address → mapGet m' key = mapGet m key := by
  intro k
  induction k with
  | zero =>
    intro s s' m m' h
    simp only [signSenderLoop, Option.some.injEq, Prod.mk.injEq] at h
    obtain ⟨h1, h2⟩ := h
    subst h1; subst h2
    exact ⟨rfl, rfl, rfl, fun _ _ => rfl⟩
  | succ k ih =>
    intro s s' m m' h
    simp only [signSenderLoop] at h
    cases hc : CreateAndSignTransaction client chainId s receiver v data with
    | none => rw [hc] at h; exact absurd h (by simp)
    | some p =>
      obtain ⟨tx, s1⟩ := p
      rw [hc] at h
      obtain ⟨haddr, hnonce, _, _⟩ :=
        CreateAndSignTransaction_step client chainId s receiver v data tx s1 hc
      obtain ⟨ih1, ih2, ih3, ih4⟩ := ih s1 s' _ m' h
      refine ⟨ih1.trans haddr, ?_, ?_, ?_⟩
      · rw [ih2, hnonce]; omega
      · rw [haddr] at ih3
        rw [ih3, mapGet_mapAppend_same]
        simp; omega
      · intro key hkey
        have := ih4 key (by rw [haddr]; exact hkey)
        rw [this, mapGet_mapAppend_ne m s.address key tx hkey]

/-- When the external signer always succeeds, the per-sender loop appends
artifacts whose nonces are exactly `s.nonce, s.nonce+1, …` in order. -/
theorem signSenderLoop_nonces (client : Client) (chainId : Int)
    (receiver : String) (v : Int) (data : List Nat)
    (hsign : ∀ dt, ∃ sg, client.signTx dt = .ok sg) :
    ∀ (k : Nat) (s s' : Sender) (m m' : List (String × List Transaction)),
      signSenderLoop client chainId receiver v data s k m = some (s', m') →
      noncesOf (mapGet m' s.address) =
        noncesOf (mapGet m s.address) ++
          (List.range k).map (fun i => some (s.nonce + i)) := by
  intro k
  induction k with
  | zero =>
    intro s s' m m' h
    simp only [signSenderLoop, Option.some.injEq, Prod.mk.injEq] at h
    obtain ⟨h1, h2⟩ := h
    subst h1; subst h2
    simp
  | succ k ih =>
    intro s s' m m' h
    simp only [signSenderLoop] at h
    cases hc : CreateAndSignTransaction client chainId s receiver v data with
    | none => rw [hc] at h; exact absurd h (by simp)
    | some p =>
      obtain ⟨tx, s1⟩ := p
      rw [hc] at h
      obtain ⟨haddr, hnonce, _, hst⟩ :=
        CreateAndSignTransaction_step client chainId s receiver v data tx s1 hc
      have hsigned :
          tx.clientTransaction.map (fun st => st.tx.nonce) = some s.nonce := by
        have hsome :=
          CreateAndSignTransaction_signed client chainId s receiver v data tx s1
            hsign hc
        cases hopt : tx.clientTransaction with
        | none => rw [hopt] at hsome; exact absurd hsome (by simp)
        | some st =>
          have := (hst st hopt).1
          simp [hopt, this]
      have step := ih s1 s' _ m' h
      rw [haddr] at step
      rw [step, mapGet_mapAppend_same]
      have hsplit : noncesOf (mapGet m s.address ++ [tx]) =
          noncesOf (mapGet m s.address) ++ [some s.nonce] := by
        simp [noncesOf, hsigned]
      rw [hsplit, List.append_assoc]
      congr 1
      rw [List.range_succ_eq_map]
      simp only [List.map_cons, List.map_map, hnonce]
      have harith : ∀ i : Nat, s.nonce + 1 + i = s.nonce + (i + 1) := by omega
      simp [Function.comp, harith]

/-! ## Claim C2: nonce sequencing -/

/-- C2: for every identity, the nonce carried by the k-th successfully built
artifact equals `initialSequence + k`, where `initialSequence` was fetched
once from network pending state; nonces are strictly increasing with no gaps
and pairwise distinct. -/
theorem nonce_sequence_strictly_increasing (client : Client) (chainId : Int)
    (receiver : String) (v : Int) (data : List Nat) (k : Nat)
    (s0 s s' : Sender) (m' : List (String × List Transaction)) (n0 : Nat)
    (hfetch : client.pendingNonceAt s0.address = .ok n0)
    (hdef : defineCurrentSenderNonce client s0 = .ok s)
    (hsign : ∀ dt, ∃ sg, client.signTx dt = .ok sg)
    (hrun : signSenderLoop client chainId receiver v data s k [] =
      some (s', m')) :
    noncesOf (mapGet m' s.address) =
      (List.range k).map (fun i => some (n0 + i)) ∧
    ∀ i j, i < k → j < k → i ≠ j →
      (noncesOf (mapGet m' s.address))[i]? ≠
        (noncesOf (mapGet m' s.address))[j]? := by
  have hs : s = { s0 with nonce := n0 } := by
    unfold defineCurrentSenderNonce at hdef
    rw [hfetch] at hdef
    simpa using hdef.symm
  have hnonce : s.nonce = n0 := by rw [hs]
  have main :=
    signSenderLoop_nonces client chainId receiver v data hsign k s s' [] m' hrun
  rw [hnonce] at main
  have hmain : noncesOf (mapGet m' s.address) =
      (List.range k).map (fun i => some (n0 + i)) := by
    rw [main]
    simp [mapGet, noncesOf]
  refine ⟨hmain, ?_⟩
  intro i j hi hj hij
  rw [hmain, List.getElem?_map, List.getElem?_map, List.getElem?_range hi,
    List.getElem?_range hj]
  simp
  omega

/-- A healthy client for witnesses: every capability succeeds, the pending
nonce is 5, the signature token is 7. -/
def clientOk : Client :=
  { suggestGasTipCap := .ok 1, suggestGasPrice := .ok 2,
    estimateGas := fun _ _ _ => .ok 21000,
    signTx := fun _ => .ok 7,
    pendingNonceAt := fun _ => .ok 5 }

/-- The artifact `clientOk` produces for nonce `n` toward receiver `0xB`. -/
def txW (n : Nat) : Transaction :=
  { clientTransaction := some
      { tx := { nonce := n, toAddr := "0xB", value := 0, gasFeeCap := 2,
                gasTipCap := 1, data := [], gas := 21000 }, sig := 7 },
    receipt := none, sender := "0xA", status := false,
    sentBlock := 0, minedBlock := 0, sentTimestamp := 0 }

/-- The `senderTransactions` map after three builds by `clientOk`. -/
def mW : List (String × List Transaction) := [("0xA", [txW 5, txW 6, txW 7])]

/-- C2 witness: three builds on a fresh identity with pending nonce 5 carry
nonces 5, 6, 7 — pairwise distinct. -/
theorem nonce_sequence_strictly_increasing_witness :
    noncesOf (mapGet mW "0xA") =
      (List.range 3).map (fun i => some (5 + i)) ∧
    ∀ i j, i < 3 → j < 3 → i ≠ j →
      (noncesOf (mapGet mW "0xA"))[i]? ≠ (noncesOf (mapGet mW "0xA"))[j]? :=
  nonce_sequence_strictly_increasing clientOk 1 "0xB" 0 [] 3
    { address := "0xA", nonce := 0 } { address := "0xA", nonce := 5 }
    { address := "0xA", nonce := 8 } mW 5 rfl rfl (fun _ => ⟨7, rfl⟩) (by decide)

/-! ## Claim C3: signing failure handling -/

/-- A client whose fee/gas estimation succeeds but whose signer fails. -/
def clientSignFail : Client :=
  { suggestGasTipCap := .ok 1, suggestGasPrice := .ok 2,
    estimateGas := fun _ _ _ => .ok 21000,
    signTx := fun _ => .error "signing failed",
    pendingNonceAt := fun _ => .ok 5 }

/-- C3: the Go code discards the error of `types.SignTx`.  With a failing
signer the build still returns successfully (no fatal abort, nil error),
yields an artifact with no signed transaction inside, and advances the
identity's nonce from 5 to 6 — contradicting the claim that a signing
failure is fatal, yields no artifact and leaves the nonce unadvanced. -/
theorem signing_failure_ignored_nonce_advanced :
    CreateAndSignTransaction clientSignFail 1
        { address := "0xA", nonce := 5 } "0xB" 0 [] =
      some ({ clientTransaction := none, receipt := none, sender := "0xA",
              status := false, sentBlock := 0, minedBlock := 0,
              sentTimestamp := 0 },
            { address := "0xA", nonce := 6 }) := by
  rfl

/-! ## Configuration model (`config.go`) and the `Test` struct (`test.go`) -/

/-- Test mode constant `SEND`. -/
def SEND : String := "send"

/-- Test mode constant `CALL`. -/
def CALL : String := "call"

/-- `FunctionConfig`: contract function name, ABI text and raw parameters. -/
structure FunctionConfig where
  name : String
  abi : String
  params : List ParamValue
  deriving Repr, DecidableEq

/-- `ContractConfig`. -/
structure ContractConfig where
  address : String
  function : FunctionConfig
  deriving Repr, DecidableEq

/-- `TestConfig`: per-test configuration values. -/
structure TestConfig where
  senders : Int
  duration : Int
  tps : Int
  contract : ContractConfig
  dataSize : Int
  value : String
  deriving Repr, DecidableEq

/-- `TestEntity`: a test's mode plus its configuration. -/
structure TestEntity where
  type : String
  config : TestConfig
  deriving Repr, DecidableEq

/-- The `Contract` field group of `Test` (Go struct `Contract` with its
`Function` payload, here `FunctionData`). -/
structure FunctionData where
  name : String
  abi : String
  params : List ParamValue
  deriving Repr, DecidableEq

structure Contract where
  address : String
  functionData : FunctionData
  deriving Repr, DecidableEq

/-- `internal.Test` (`test.go`): configuration snapshot plus mutable run
state.  The `metrics` fields are the return values of `CollectMetrics`
below. -/
structure Test where
  chainId : Int
  testName : String
  testType : String
  dataSize : Int
  txsCount : Int
  duration : Int
  tps : Int
  value : Int
  senders : List Sender
  isContract : Bool
  contract : Contract
  senderTransactions : List (String × List Transaction)
  blocks : List Block
  startBlock : Nat
  endBlock : Nat
  deriving Repr, DecidableEq

/-! ## Numeric / boolean string decoding (external `big.Int` / `strconv`) -/

/-- Model of `big.Int.SetString(s, 10)`: an optional leading sign followed by
one or more decimal digits; anything else (empty string, hex prefix,
letters, separators) fails. -/
def bigIntSetString10 (s : String) : Option Int :=
  match s.toList with
  | [] => none
  | c :: cs =>
    let (neg, digits) :=
      if c = '-' then (true, cs)
      else if c = '+' then (false, cs)
      else (false, c :: cs)
    if digits.isEmpty then none
    else if digits.all Char.isDigit then
      let n : Int :=
        digits.foldl (fun acc d => acc * 10 + ((d.toNat - 48 : Nat) : Int)) 0
      some (if neg then -n else n)
    else none

/-- Model of `strconv.ParseBool`. -/
def parseBool (s : String) : Option Bool :=
  if s = "1" ∨ s = "t" ∨ s = "T" ∨ s = "true" ∨ s = "TRUE" ∨ s = "True" then
    some true
  else if s = "0" ∨ s = "f" ∨ s = "F" ∨ s = "false" ∨ s = "FALSE" ∨ s = "False" then
    some false
  else none

/-! ## Parameter coercion (`Test.convertParams`) -/

/-- One arm of the `switch input.Type.T` in `convertParams`, at parameter
position `i`. -/
def convertOneParam (env : Env) (i : Nat) (ty : AbiType) (param : ParamValue) :
    Except String AbiValue :=
  match ty with
  | .address =>
    match param with
    | .str s => .ok (.addr (env.hexToAddress s))
    | _ => .error ("parameter " ++ toString i ++
        " must be a valid Ethereum address (hex string)")
  | .uintTy | .intTy =>
    match param with
    | .str s =>
      match bigIntSetString10 s with
      | some value => .ok (.bigInt value)
      | none => .error ("invalid uint256 value for parameter " ++
          toString i ++ ": " ++ s)
    | _ => .error ("parameter " ++ toString i ++
        " has an incorrect type or format")
  | .boolTy =>
    match param with
    | .str s =>
      match parseBool s with
      | some value => .ok (.boolean value)
      | none => .error ("parameter " ++ toString i ++
          " must be a boolean (true/false or 'true'/'false')")
    | .boolean b => .ok (.boolean b)
    | _ => .error ("parameter " ++ toString i ++ " should be a bool")
  | .stringTy =>
    match param with
    | .str s => .ok (.str s)
    | _ => .error ("parameter " ++ toString i ++ " must be a string")
  | .other tyName =>
    .error ("unsupported parameter type for parameter " ++ toString i ++
      ": " ++ tyName)

/-- The `for i, input := range method.Inputs` loop of `convertParams`
(lengths are equal when entered, so the ragged fallback is unreachable). -/
def convertParamsLoop (env : Env) :
    Nat → List AbiType → List ParamValue → Except String (List AbiValue)
  | _, [], _ => .ok []
  | i, input :: inputs, param :: params =>
    match convertOneParam env i input param with
    | .error e => .error e
    | .ok v =>
      match convertParamsLoop env (i + 1) inputs params with
      | .error e => .error e
      | .ok vs => .ok (v :: vs)
  | _, _ :: _, [] => .ok []

/-- `Test.convertParams`: arity check then per-position typed coercion. -/
def convertParams (env : Env) (method : Method) (params : List ParamValue) :
    Except String (List AbiValue) :=
  if method.inputs.length ≠ params.length then
    .error ("parameter count mismatch: expected " ++
      toString method.inputs.length ++ ", got " ++ toString params.length)
  else convertParamsLoop env 0 method.inputs params

/-- `parsedABI.Methods[name]` lookup. -/
def methodsLookup (p : ParsedABI) (name : String) : Option Method :=
  (p.methods.find? (fun e => e.1 == name)).map (fun e => e.2)

/-- `Test.generateData`: a filler payload of `0x41` bytes. -/
def generateData (sizeInBytes : Nat) : List Nat :=
  List.replicate sizeInBytes 0x41

/-! ## Test construction (`NewTest`) -/

/-- `NewTest`: build the test state from its configuration.  An empty or
unparseable `value` string falls back to 0 (a warning is printed, no error
is returned). -/
def NewTest (chainId : Int) (configTestName : String) (configTest : TestEntity) :
    Test :=
  let base : Test :=
    { chainId := chainId,
      testName := configTestName,
      testType := configTest.type,
      txsCount := configTest.config.tps * configTest.config.duration,
      dataSize := configTest.config.dataSize,
      duration := configTest.config.duration,
      tps := configTest.config.tps,
      value := 0,
      senders := [],
      isContract := (configTest.config.contract.address != "") &&
        (configTest.config.contract.function.name != "") &&
        (configTest.config.contract.function.abi != ""),
      contract :=
        { address := configTest.config.contract.address,
          functionData :=
            { name := configTest.config.contract.function.name,
              abi := configTest.config.contract.function.abi,
              params := configTest.config.contract.function.params } },
      senderTransactions := [],
      blocks := [],
      startBlock := 0,
      endBlock := 0 }
  if configTest.config.value = "" then { base with value := 0 }
  else
    match bigIntSetString10 configTest.config.value with
    | none => { base with value := 0 }
    | some v => { base with value := v }

/-! ## Signing all senders' transactions (`Test.SignTransactions`) -/

/-- The outer `for _, sender := range t.senders` loop of
`SignTransactions`: each sender builds `txPer` transactions toward either
the contract address or itself. -/
def signAllSenders (client : Client) (chainId : Int) (isContract : Bool)
    (contractAddr : String) (v : Int) (data : List Nat) :
    List Sender → Nat → List (String × List Transaction) →
    Option (List Sender × List (String × List Transaction))
  | [], _, m => some ([], m)
  | s :: rest, txPer, m =>
    let receiver := if isContract then contractAddr else s.address
    match signSenderLoop client chainId receiver v data s txPer m with
    | none => none
    | some (s', m') =>
      match signAllSenders client chainId isContract contractAddr v data
          rest txPer m' with
      | none => none
      | some (rest', m'') => some (s' :: rest', m'')

/-- The payload-production half of `Test.SignTransactions`: contract call
data via ABI parse / method lookup / parameter conversion / pack, or filler
data of `dataSize` bytes, or the nil payload.  `none` models the `log.Fatal`
aborts (ABI parse, parameter conversion, packing) and the negative-`make`
panic; `some (.error e)` the returned unknown-method error. -/
def signTransactionsData (env : Env) (t : Test) :
    Option (Except String (List Nat)) :=
  if t.isContract then
    match env.abiJSON t.contract.functionData.abi with
    | .error _ => none
    | .ok parsedABI =>
      match methodsLookup parsedABI t.contract.functionData.name with
      | none => some (.error ("invalid method name: " ++
          t.contract.functionData.name ++
          " (ensure the method exists in the contract ABI)"))
      | some abiMethod =>
        match convertParams env abiMethod t.contract.functionData.params with
        | .error _ => none
        | .ok convertedParams =>
          match env.abiPack t.contract.functionData.name convertedParams with
          | .error _ => none
          | .ok data => some (.ok data)
  else if t.dataSize != 0 then
    if t.dataSize < 0 then none
    else some (.ok (generateData t.dataSize.toNat))
  else some (.ok [])

/-- `Test.SignTransactions`: compute `txPerSender` by integer division
(`none` models the division-by-zero panic on an empty sender set), produce
the shared payload, then build and sign each sender's transactions. -/
def SignTransactions (env : Env) (client : Client) (t : Test) :
    Option (Except String Test) :=
  if t.senders.length = 0 then none
  else
    let txPerSender := (Int.tdiv t.txsCount (t.senders.length : Int)).toNat
    match signTransactionsData env t with
    | none => none
    | some (.error e) => some (.error e)
    | some (.ok data) =>
      match signAllSenders client t.chainId t.isContract
          (env.hexToAddress t.contract.address) t.value data
          t.senders txPerSender t.senderTransactions with
      | none => none
      | some (senders', m') =>
        some (.ok { t with senders := senders', senderTransactions := m' })

/-! ## Counting lemmas for the outer signing loop -/

/-- `signAllSenders` leaves every key that belongs to no processed sender
untouched. -/
theorem signAllSenders_other (client : Client) (chainId : Int)
    (isContract : Bool) (contractAddr : String) (v : Int) (data : List Nat) :
    ∀ (ss : List Sender) (txPer : Nat) (m : List (String × List Transaction))
      (ss' : List Sender) (m' : List (String × List Transaction)),
      signAllSenders client chainId isContract contractAddr v data ss txPer m =
        some (ss', m') →
      ∀ key, (∀ s ∈ ss, s.address ≠ key) → mapGet m' key = mapGet m key := by
  intro ss
  induction ss with
  | nil =>
    intro txPer m ss' m' h key _
    simp only [signAllSenders, Option.some.injEq, Prod.mk.injEq] at h
    rw [← h.2]
  | cons s rest ih =>
    intro txPer m ss' m' h key hkey
    cases hl : signSenderLoop client chainId
        (if isContract then contractAddr else s.address) v data s txPer m with
    | none => simp [signAllSenders, hl] at h
    | some p =>
      obtain ⟨s1, m1⟩ := p
      cases hr : signAllSenders client chainId isContract contractAddr v data
          rest txPer m1 with
      | none => simp [signAllSenders, hl, hr] at h
      | some q =>
        obtain ⟨rest', m''⟩ := q
        simp only [signAllSenders, hl, hr, Option.some.injEq,
          Prod.mk.injEq] at h
        obtain ⟨-, hm⟩ := h
        subst hm
        have h1 := (signSenderLoop_state client chainId _ v data txPer s s1
          m m1 hl).2.2.2 key (fun he => hkey s (by simp) he.symm)
        have h2 := ih txPer m1 rest' m'' hr key
          (fun x hx => hkey x (by simp [hx]))
        rw [h2, h1]

/-- With pairwise-distinct addresses, `signAllSenders` appends exactly
`txPer` artifacts to each sender's slice. -/
theorem signAllSenders_count (client : Client) (chainId : Int)
    (isContract : Bool) (contractAddr : String) (v : Int) (data : List Nat) :
    ∀ (ss : List Sender) (txPer : Nat) (m : List (String × List Transaction))
      (ss' : List Sender) (m' : List (String × List Transaction)),
      signAllSenders client chainId isContract contractAddr v data ss txPer m =
        some (ss', m') →
      (ss.map Sender.address).Nodup →
      ∀ s ∈ ss, (mapGet m' s.address).length =
        (mapGet m s.address).length + txPer := by
  intro ss
  induction ss with
  | nil => intro _ _ _ _ _ _ s hs; exact absurd hs (by simp)
  | cons s0 rest ih =>
    intro txPer m ss' m' h hnodup s hs
    cases hl : signSenderLoop client chainId
        (if isContract then contractAddr else s0.address) v data s0 txPer m with
    | none => simp [signAllSenders, hl] at h
    | some p =>
      obtain ⟨s1, m1⟩ := p
      cases hr : signAllSenders client chainId isContract contractAddr v data
          rest txPer m1 with
      | none => simp [signAllSenders, hl, hr] at h
      | some q =>
        obtain ⟨rest', m''⟩ := q
        simp only [signAllSenders, hl, hr, Option.some.injEq,
          Prod.mk.injEq] at h
        obtain ⟨-, hm⟩ := h
        subst hm
        have hstate := signSenderLoop_state client chainId _ v data txPer s0 s1
          m m1 hl
        simp only [List.map_cons, List.nodup_cons] at hnodup
        rcases List.mem_cons.mp hs with hss | hss
        · subst hss
          have hother := signAllSenders_other client chainId isContract
            contractAddr v data rest txPer m1 rest' m'' hr s.address
            (fun x hx he => hnodup.1 (he ▸ List.mem_map_of_mem Sender.address hx))
          rw [hother, hstate.2.2.1]
        · have hne : s0.address ≠ s.address := fun he =>
            hnodup.1 (he ▸ List.mem_map_of_mem Sender.address hss)
          have h1 := hstate.2.2.2 s.address (fun he => hne he.symm)
          have h2 := ih txPer m1 rest' m'' hr hnodup.2 s hss
          rw [h2, h1]

/-! ## Claim C4: per-identity artifact counts -/

/-- C4: with a non-empty identity set (pairwise distinct addresses, empty
initial map), each identity builds exactly `(tps × duration) / identityCount`
artifacts (Go integer division), and the total built is
`identityCount × ((tps × duration) / identityCount)` — the remainder is
never built. -/
theorem per_identity_artifact_count (env : Env) (client : Client) (t t' : Test)
    (htc : t.txsCount = t.tps * t.duration)
    (hne : t.senders ≠ [])
    (hnodup : (t.senders.map Sender.address).Nodup)
    (hempty : t.senderTransactions = [])
    (hrun : SignTransactions env client t = some (.ok t')) :
    (∀ s ∈ t.senders,
      (mapGet t'.senderTransactions s.address).length =
        (Int.tdiv (t.tps * t.duration) (t.senders.length : Int)).toNat) ∧
    (t.senders.map
        (fun s => (mapGet t'.senderTransactions s.address).length)).sum =
      t.senders.length *
        (Int.tdiv (t.tps * t.duration) (t.senders.length : Int)).toNat := by
  have hlen : ¬(t.senders.length = 0) := by
    simpa [List.length_eq_zero] using hne
  rw [SignTransactions, if_neg hlen] at hrun
  cases hd : signTransactionsData env t with
  | none => simp [hd] at hrun
  | some r =>
    cases r with
    | error e => simp [hd] at hrun
    | ok data =>
      cases hall : signAllSenders client t.chainId t.isContract
          (env.hexToAddress t.contract.address) t.value data t.senders
          ((Int.tdiv t.txsCount (t.senders.length : Int)).toNat)
          t.senderTransactions with
      | none => simp [hd, hall] at hrun
      | some p =>
        obtain ⟨senders', m'⟩ := p
        simp only [hd, hall, Option.some.injEq, Except.ok.injEq] at hrun
        have hmap : t'.senderTransactions = m' := by rw [← hrun]
        have hcount := signAllSenders_count client t.chainId t.isContract
          (env.hexToAddress t.contract.address) t.value data t.senders _
          t.senderTransactions senders' m' hall hnodup
        have hper : ∀ s ∈ t.senders,
            (mapGet t'.senderTransactions s.address).length =
              (Int.tdiv (t.tps * t.duration) (t.senders.length : Int)).toNat := by
          intro s hs
          have := hcount s hs
          rw [hmap, this, hempty, htc]
          simp [mapGet]
        refine ⟨hper, ?_⟩
        have hconst : t.senders.map
            (fun s => (mapGet t'.senderTransactions s.address).length) =
            t.senders.map (fun _ =>
              (Int.tdiv (t.tps * t.duration) (t.senders.length : Int)).toNat) :=
          List.map_congr_left (fun s hs => hper s hs)
        rw [hconst, List.map_const', List.sum_replicate, smul_eq_mul]

/-! ## `NewTest` field lemmas -/

theorem NewTest_txsCount (c : Int) (n : String) (e : TestEntity) :
    (NewTest c n e).txsCount = e.config.tps * e.config.duration := by
  unfold NewTest
  by_cases h : e.config.value = ""
  · simp [h]
  · cases hbs : bigIntSetString10 e.config.value <;> simp [h, hbs]

theorem NewTest_senderTransactions (c : Int) (n : String) (e : TestEntity) :
    (NewTest c n e).senderTransactions = [] := by
  unfold NewTest
  by_cases h : e.config.value = ""
  · simp [h]
  · cases hbs : bigIntSetString10 e.config.value <;> simp [h, hbs]

theorem NewTest_value_default (c : Int) (n : String) (e : TestEntity)
    (hval : e.config.value = "" ∨ bigIntSetString10 e.config.value = none) :
    (NewTest c n e).value = 0 := by
  unfold NewTest
  rcases hval with h | h
  · simp [h]
  · by_cases he : e.config.value = ""
    · simp [he]
    · simp [he, h]

/-! ## Claim C4 witness -/

/-- A trivial ABI environment for witnesses; its ABI capabilities are never
consulted by non-contract tests. -/
def envW : Env :=
  { hexToAddress := fun s => s,
    abiJSON := fun _ => .error "unused",
    abiPack := fun _ _ => .error "unused" }

/-- Witness test configuration: send mode, tps 5, duration 2, plain value
transfers, no contract, no payload. -/
def entityW : TestEntity :=
  { type := "send",
    config := { senders := 2, duration := 2, tps := 5,
                contract := { address := "",
                              function := { name := "", abi := "", params := [] } },
                dataSize := 0, value := "" } }

/-- The witness test: two identities assigned. -/
def tC4 : Test :=
  { NewTest 1 "t4" entityW with
      senders := [{ address := "0xA", nonce := 5 },
                  { address := "0xC", nonce := 5 }] }

/-- The witness test state after `SignTransactions` (computed). -/
def tC4sig : Test :=
  match SignTransactions envW clientOk tC4 with
  | some (.ok t') => t'
  | _ => tC4

/-- C4 witness: with 2 identities and `tps × duration = 10`, each identity
builds exactly 5 artifacts and the total is `2 × 5`. -/
theorem per_identity_artifact_count_witness :
    (∀ s ∈ tC4.senders,
      (mapGet tC4sig.senderTransactions s.address).length =
        (Int.tdiv (tC4.tps * tC4.duration) (tC4.senders.length : Int)).toNat) ∧
    (tC4.senders.map
        (fun s => (mapGet tC4sig.senderTransactions s.address).length)).sum =
      tC4.senders.length *
        (Int.tdiv (tC4.tps * tC4.duration) (tC4.senders.length : Int)).toNat :=
  per_identity_artifact_count envW clientOk tC4 tC4sig rfl (by decide)
    (by decide) rfl rfl

/-! ## Claim C5: parameter coercion -/

/-- C5: coercion for a function expecting `(address, uint256)`:
`["0xabc123", "100"]` succeeds, producing an address value and the
arbitrary-precision integer 100; `["0xabc123", "notanumber"]` fails with a
parameter-conversion error naming position 1; integer-typed arguments
accept only base-10 numeric strings (a hex string or a non-string value is
rejected). -/
theorem param_coercion_address_uint256 :
    (∀ env : Env,
      convertParams env { inputs := [AbiType.address, AbiType.uintTy] }
          [ParamValue.str "0xabc123", ParamValue.str "100"] =
        .ok [AbiValue.addr (env.hexToAddress "0xabc123"),
             AbiValue.bigInt 100]) ∧
    (∀ env : Env,
      convertParams env { inputs := [AbiType.address, AbiType.uintTy] }
          [ParamValue.str "0xabc123", ParamValue.str "notanumber"] =
        .error "invalid uint256 value for parameter 1: notanumber") ∧
    (∀ env : Env,
      convertParams env { inputs := [AbiType.uintTy] }
          [ParamValue.str "0x10"] =
        .error "invalid uint256 value for parameter 0: 0x10") ∧
    (∀ env : Env, ∀ b : Bool,
      convertParams env { inputs := [AbiType.uintTy] }
          [ParamValue.boolean b] =
        .error "parameter 0 has an incorrect type or format") := by
  refine ⟨fun env => ?_, fun env => ?_, fun env => ?_, fun env b => ?_⟩ <;> rfl

/-! ## Value propagation (claim C9) -/

/-- Membership after `mapAppend`: an artifact found in the updated map was
already in an entry of the old map, or is the appended artifact. -/
theorem mem_entry_mapAppend (m : List (String × List Transaction))
    (k : String) (tx0 : Transaction) :
    ∀ p ∈ mapAppend m k tx0, ∀ tx ∈ p.2,
      (∃ q ∈ m, tx ∈ q.2) ∨ tx = tx0 := by
  induction m with
  | nil =>
    intro p hp tx htx
    simp only [mapAppend, List.mem_singleton] at hp
    subst hp
    simp only [List.mem_singleton] at htx
    exact Or.inr htx
  | cons e rest ih =>
    intro p hp tx htx
    by_cases he : e.1 = k
    · simp only [mapAppend, if_pos he] at hp
      rcases List.mem_cons.mp hp with hp1 | hp1
      · subst hp1
        simp only [List.mem_append, List.mem_singleton] at htx
        rcases htx with h1 | h1
        · exact Or.inl ⟨e, List.mem_cons_self e rest, h1⟩
        · exact Or.inr h1
      · exact Or.inl ⟨p, List.mem_cons_of_mem e hp1, htx⟩
    · simp only [mapAppend, if_neg he] at hp
      rcases List.mem_cons.mp hp with hp1 | hp1
      · subst hp1
        exact Or.inl ⟨p, List.mem_cons_self p rest, htx⟩
      · rcases ih p hp1 tx htx with ⟨q, hq, hq2⟩ | h1
        · exact Or.inl ⟨q, List.mem_cons_of_mem e hq, hq2⟩
        · exact Or.inr h1

/-- Every artifact in the map after a per-sender loop was either already
there or carries the loop's transfer value in its signed body. -/
theorem signSenderLoop_values (client : Client) (chainId : Int)
    (receiver : String) (v : Int) (data : List Nat) :
    ∀ (k : Nat) (s s' : Sender) (m m' : List (String × List Transaction)),
      signSenderLoop client chainId receiver v data s k m = some (s', m') →
      ∀ p ∈ m', ∀ tx ∈ p.2,
        (∃ q ∈ m, tx ∈ q.2) ∨
          ∀ st, tx.clientTransaction = some st → st.tx.value = v := by
  intro k
  induction k with
  | zero =>
    intro s s' m m' h p hp tx htx
    simp only [signSenderLoop, Option.some.injEq, Prod.mk.injEq] at h
    obtain ⟨-, hm⟩ := h
    subst hm
    exact Or.inl ⟨p, hp, htx⟩
  | succ k ih =>
    intro s s' m m' h p hp tx htx
    cases hc : CreateAndSignTransaction client chainId s receiver v data with
    | none => simp [signSenderLoop, hc] at h
    | some pr =>
      obtain ⟨tx0, s1⟩ := pr
      have h' : signSenderLoop client chainId receiver v data s1 k
          (mapAppend m s.address tx0) = some (s', m') := by
        simpa [signSenderLoop, hc] using h
      rcases ih s1 s' _ m' h' p hp tx htx with ⟨q, hq, hq2⟩ | hvalue
      · rcases mem_entry_mapAppend m s.address tx0 q hq tx hq2 with hin | heq
        · exact Or.inl hin
        · subst heq
          exact Or.inr (fun st hst =>
            ((CreateAndSignTransaction_step client chainId s receiver v data
              tx s1 hc).2.2.2 st hst).2)
      · exact Or.inr hvalue

/-- Value propagation through the outer signing loop. -/
theorem signAllSenders_values (client : Client) (chainId : Int)
    (isContract : Bool) (contractAddr : String) (v : Int) (data : List Nat) :
    ∀ (ss : List Sender) (txPer : Nat) (m : List (String × List Transaction))
      (ss' : List Sender) (m' : List (String × List Transaction)),
      signAllSenders client chainId isContract contractAddr v data ss txPer m =
        some (ss', m') →
      ∀ p ∈ m', ∀ tx ∈ p.2,
        (∃ q ∈ m, tx ∈ q.2) ∨
          ∀ st, tx.clientTransaction = some st → st.tx.value = v := by
  intro ss
  induction ss with
  | nil =>
    intro txPer m ss' m' h p hp tx htx
    simp only [signAllSenders, Option.some.injEq, Prod.mk.injEq] at h
    obtain ⟨-, hm⟩ := h
    subst hm
    exact Or.inl ⟨p, hp, htx⟩
  | cons s0 rest ih =>
    intro txPer m ss' m' h p hp tx htx
    cases hl : signSenderLoop client chainId
        (if isContract then contractAddr else s0.address) v data s0 txPer m with
    | none => simp [signAllSenders, hl] at h
    | some pr =>
      obtain ⟨s1, m1⟩ := pr
      cases hr : signAllSenders client chainId isContract contractAddr v data
          rest txPer m1 with
      | none => simp [signAllSenders, hl, hr] at h
      | some q =>
        obtain ⟨rest', m''⟩ := q
        simp only [signAllSenders, hl, hr, Option.some.injEq,
          Prod.mk.injEq] at h
        obtain ⟨-, hm⟩ := h
        subst hm
        rcases ih txPer m1 rest' m'' hr p hp tx htx with ⟨q1, hq1, hq2⟩ | hvalue
        · rcases signSenderLoop_values client chainId _ v data txPer s0 s1
            m m1 hl q1 hq1 tx hq2 with hin | hvalue
          · exact Or.inl hin
          · exact Or.inr hvalue
        · exact Or.inr hvalue

/-! ## Claim C9: invalid transfer value defaults to zero -/

/-- C9: a test whose configured value string is empty or not base-10 decimal
is constructed without error with transfer value 0, and every transaction it
builds carries value 0 in its signed body. -/
theorem invalid_value_defaults_to_zero (env : Env) (client : Client)
    (chainId : Int) (name : String) (entity : TestEntity) (ss : List Sender)
    (t t' : Test)
    (hval : entity.config.value = "" ∨
      bigIntSetString10 entity.config.value = none)
    (ht : t = { NewTest chainId name entity with senders := ss })
    (hrun : SignTransactions env client t = some (.ok t')) :
    t.value = 0 ∧
    ∀ p ∈ t'.senderTransactions, ∀ tx ∈ p.2, ∀ st,
      tx.clientTransaction = some st → st.tx.value = 0 := by
  have hv : t.value = 0 := by
    rw [ht]
    show (NewTest chainId name entity).value = 0
    exact NewTest_value_default chainId name entity hval
  have hempty : t.senderTransactions = [] := by
    rw [ht]
    show (NewTest chainId name entity).senderTransactions = []
    exact NewTest_senderTransactions chainId name entity
  refine ⟨hv, ?_⟩
  by_cases hlen : t.senders.length = 0
  · rw [SignTransactions, if_pos hlen] at hrun
    exact absurd hrun (by simp)
  · rw [SignTransactions, if_neg hlen] at hrun
    cases hd : signTransactionsData env t with
    | none => simp [hd] at hrun
    | some r =>
      cases r with
      | error e => simp [hd] at hrun
      | ok data =>
        cases hall : signAllSenders client t.chainId t.isContract
            (env.hexToAddress t.contract.address) t.value data t.senders
            ((Int.tdiv t.txsCount (t.senders.length : Int)).toNat)
            t.senderTransactions with
        | none => simp [hd, hall] at hrun
        | some p =>
          obtain ⟨senders', m'⟩ := p
          simp only [hd, hall, Option.some.injEq, Except.ok.injEq] at hrun
          have hmap : t'.senderTransactions = m' := by rw [← hrun]
          intro p hp tx htx st hst
          rw [hmap] at hp
          rcases signAllSenders_values client t.chainId t.isContract
              (env.hexToAddress t.contract.address) t.value data t.senders _
              t.senderTransactions senders' m' hall p hp tx htx with hin | hvalue
          · obtain ⟨q, hq, -⟩ := hin
            rw [hempty] at hq
            exact absurd hq (by simp)
          · rw [← hv]
            exact hvalue st hst

/-- C9 witness: the empty value string yields value 0 and each built
transaction of the witness test carries value 0. -/
theorem invalid_value_defaults_to_zero_witness :
    tC4.value = 0 ∧
    ∀ p ∈ tC4sig.senderTransactions, ∀ tx ∈ p.2, ∀ st,
      tx.clientTransaction = some st → st.tx.value = 0 :=
  invalid_value_defaults_to_zero envW clientOk 1 "t4" entityW
    tC4.senders tC4 tC4sig (Or.inl rfl) rfl rfl

/-! ## Outcome collector (`Test.CollectData`, per-sender polling loop) -/

/-- Go map-of-block-hashes insert-if-absent (`blocks[h] = true` guarded by
`exists`). -/
def insertBlockHash (blocks : List String) (h : String) : List String :=
  if blocks.contains h then blocks else blocks ++ [h]

/-- One sweep over a sender's artifacts (`for txIndex := range ...`):
already-resolved artifacts are skipped; a failing receipt fetch is skipped;
a resolved receipt is stored, its block hash recorded, the collected counter
incremented.  `fetch` is the attempt's receipt oracle (`none` = not mined
yet / fetch error); `none` overall models the nil-pointer panic of
`txSent.clientTransaction.Hash()` on an artifact with no signed payload. -/
def sweepReceipts (fetch : SignedTx → Option Receipt) :
    List Transaction → List String → Nat →
    Option (List Transaction × List String × Nat)
  | [], blocks, collected => some ([], blocks, collected)
  | tx :: rest, blocks, collected =>
    match tx.receipt with
    | some _ =>
      match sweepReceipts fetch rest blocks collected with
      | none => none
      | some (rest', blocks', collected') =>
        some (tx :: rest', blocks', collected')
    | none =>
      match tx.clientTransaction with
      | none => none
      | some st =>
        match fetch st with
        | none =>
          match sweepReceipts fetch rest blocks collected with
          | none => none
          | some (rest', blocks', collected') =>
            some (tx :: rest', blocks', collected')
        | some txReceipt =>
          match sweepReceipts fetch rest
              (insertBlockHash blocks txReceipt.blockHash) (collected + 1) with
          | none => none
          | some (rest', blocks', collected') =>
            some ({ tx with receipt := some txReceipt } :: rest', blocks',
              collected')

/-- The bounded retry loop of `CollectData` for one sender
(`for attempts < AttemptsToCollect && !txCollected`): sweep, then stop when
every artifact of the sender has been collected, otherwise sleep and retry.
`fetch` gives each attempt's receipt oracle; `remaining` is the attempts
left out of `AttemptsToCollect`. -/
def collectSenderLoop (fetch : Nat → SignedTx → Option Receipt) (total : Nat) :
    Nat → Nat → List Transaction → List String → Nat →
    Option (List Transaction × List String × Nat)
  | _, 0, txs, blocks, collected => some (txs, blocks, collected)
  | attempt, rem + 1, txs, blocks, collected =>
    match sweepReceipts (fetch attempt) txs blocks collected with
    | none => none
    | some (txs', blocks', collected') =>
      if collected' = total then some (txs', blocks', collected')
      else collectSenderLoop fetch total (attempt + 1) rem txs' blocks' collected'

/-! ## Metrics aggregator (`Test.CollectMetrics`) -/

/-- `internal.Metrics` (`test.go`): the aggregated submit-mode metrics. -/
structure Metrics where
  configTps : Nat
  realTps : Nat
  avgTxsPerBlock : Nat
  avgTxsBlockDiffIncluded : List (Nat × Nat)
  avgTimeToInclude : Nat
  avgGasPricePerTx : Nat
  avgGasUsedPerBlock : Nat
  succeedTxs : Nat
  failedTxs : Nat
  deriving Repr, DecidableEq

/-- The running accumulator of the transaction loop in `CollectMetrics`. -/
structure MetricsAcc where
  avgTxsBlockDiffIncluded : List (Nat × Nat)
  totalGasPrice : Int
  totalTimeToInclude : Nat
  succeedTxs : Nat
  failedTxs : Nat
  totalTxCount : Nat
  deriving Repr, DecidableEq

/-- Histogram increment `metrics.avgTxsBlockDiffIncluded[key]++` (Go map). -/
def histBump : List (Nat × Nat) → Nat → List (Nat × Nat)
  | [], k => [(k, 1)]
  | (k', c) :: rest, k =>
    if k' = k then (k', c + 1) :: rest else (k', c) :: histBump rest k

/-- Histogram read (Go map read: 0 when the key is absent). -/
def histGet : List (Nat × Nat) → Nat → Nat
  | [], _ => 0
  | (k', c) :: rest, k => if k' = k then c else histGet rest k

/-- Histogram key membership (Go `_, exists :=` form). -/
def histMem : List (Nat × Nat) → Nat → Bool
  | [], _ => false
  | (k', _) :: rest, k => if k' = k then true else histMem rest k

/-- The body of the transaction loop in `CollectMetrics` for one artifact.
`none` models the nil-pointer panic of `tx.receipt.BlockNumber` on an
artifact whose receipt was never resolved.  The histogram key is the Go
`uint64` subtraction `receipt.BlockNumber.Uint64() - tx.sentBlock`; the
inclusion latency is `block.Time()` seconds minus the millisecond send
timestamp, cast through `uint64` (wrapping when negative). -/
def collectMetricsTx (blocks : List Block) (acc : MetricsAcc)
    (tx : Transaction) : Option MetricsAcc :=
  match tx.receipt with
  | none => none
  | some receipt =>
    let key := u64sub receipt.blockNumber tx.sentBlock
    let hist := histBump acc.avgTxsBlockDiffIncluded key
    let totalGasPrice := acc.totalGasPrice + receipt.effectiveGasPrice
    let totalTimeToInclude := blocks.foldl
      (fun tot b =>
        if b.number = receipt.blockNumber then
          (tot + u64ofInt ((b.time : Int) * 1000 - tx.sentTimestamp)) % U64
        else tot)
      acc.totalTimeToInclude
    some { avgTxsBlockDiffIncluded := hist,
           totalGasPrice := totalGasPrice,
           totalTimeToInclude := totalTimeToInclude,
           succeedTxs :=
             if receipt.status = 0 then acc.succeedTxs else acc.succeedTxs + 1,
           failedTxs :=
             if receipt.status = 0 then acc.failedTxs + 1 else acc.failedTxs,
           totalTxCount := acc.totalTxCount + 1 }

/-- The inner `for _, tx := range senderTxs` loop of `CollectMetrics`. -/
def collectMetricsTxs (blocks : List Block) :
    MetricsAcc → List Transaction → Option MetricsAcc
  | acc, [] => some acc
  | acc, tx :: txs =>
    match collectMetricsTx blocks acc tx with
    | none => none
    | some acc' => collectMetricsTxs blocks acc' txs

/-- The outer `for _, senderTxs := range t.senderTransactions` loop. -/
def collectMetricsAll (blocks : List Block) :
    MetricsAcc → List (String × List Transaction) → Option MetricsAcc
  | acc, [] => some acc
  | acc, e :: rest =>
    match collectMetricsTxs blocks acc e.2 with
    | none => none
    | some acc' => collectMetricsAll blocks acc' rest

/-- `Test.CollectMetrics`: per-block averages (guarded against an empty
block list), then the per-transaction aggregation, then the per-transaction
averages (guarded against a zero transaction count).  `avgGasPricePerTx`
divides the accumulated `big.Int` price Euclidean-style
(`big.Int.Div`) and keeps the low 64 bits (`Uint64`). -/
def initMetricsAcc : MetricsAcc :=
  { avgTxsBlockDiffIncluded := [], totalGasPrice := 0,
    totalTimeToInclude := 0, succeedTxs := 0, failedTxs := 0,
    totalTxCount := 0 }

def CollectMetrics (t : Test) : Option Metrics :=
  let txCount := t.blocks.foldl (fun acc b => acc + b.txCount) 0
  let gasUsed := t.blocks.foldl (fun acc b => (acc + b.gasUsed) % U64) 0
  let avgTxsPerBlock :=
    if t.blocks.length ≠ 0 then txCount / t.blocks.length else 0
  let avgGasUsedPerBlock :=
    if t.blocks.length ≠ 0 then gasUsed / t.blocks.length else 0
  match collectMetricsAll t.blocks initMetricsAcc t.senderTransactions with
  | none => none
  | some acc =>
    let avgTimeToInclude :=
      if acc.totalTxCount ≠ 0 then acc.totalTimeToInclude / acc.totalTxCount
      else 0
    let avgGasPricePerTx :=
      if acc.totalTxCount ≠ 0 then
        (Int.ediv acc.totalGasPrice (acc.totalTxCount : Int)).natAbs % U64
      else 0
    some { configTps := u64ofInt t.tps,
           realTps := 0,
           avgTxsPerBlock := avgTxsPerBlock,
           avgTxsBlockDiffIncluded := acc.avgTxsBlockDiffIncluded,
           avgTimeToInclude := avgTimeToInclude,
           avgGasPricePerTx := avgGasPricePerTx,
           avgGasUsedPerBlock := avgGasUsedPerBlock,
           succeedTxs := acc.succeedTxs,
           failedTxs := acc.failedTxs }

/-! ## Runner configuration and test preparation (`config.go` / `runner.go`) -/

structure NodeConfig where
  rpcUrl : String
  chainId : Int
  deriving Repr, DecidableEq

structure AppConfig where
  node : NodeConfig
  deriving Repr, DecidableEq

structure SendersConfig where
  privateKeys : List String
  deriving Repr, DecidableEq

/-- `internal.Config`.  Go's `Tests` is a map iterated in unspecified
order; it is embedded as an association list in one iteration order. -/
structure Config where
  app : AppConfig
  tests : List (String × TestEntity)
  senders : SendersConfig
  deriving Repr, DecidableEq

/-- The error constant `NotEnoughSenders` (`runner.go`). -/
def NotEnoughSenders : String :=
  "insufficient senders available, check sender configuration"

/-- `internal.Runner`: suite state (the client capability lives outside). -/
structure Runner where
  config : Config
  tests : List Test
  senders : List Sender
  totalTxsCount : Int
  errors : List String
  deriving Repr, DecidableEq

/-- The loop of `Runner.PrepareTests`: build each test, accumulate the
total transaction count, abort with `NotEnoughSenders` as soon as a test
requests more identities than keys are configured, otherwise assign the
first `Senders` identities and append the test.  `none` models the slice
panic of `r.senders[0:n]` for a negative or oversized `n`. -/
def prepareTestsLoop (chainId : Int) (keyCount : Nat) (senders : List Sender) :
    Runner → List (String × TestEntity) → Option (Runner × Except String Unit)
  | r, [] => some (r, .ok ())
  | r, (configName, configTest) :: rest =>
    let test := NewTest chainId configName configTest
    let r1 := { r with totalTxsCount := r.totalTxsCount + test.txsCount }
    if configTest.config.senders > (keyCount : Int) then
      some (r1, .error NotEnoughSenders)
    else if configTest.config.senders < 0 then none
    else if (senders.length : Int) < configTest.config.senders then none
    else
      prepareTestsLoop chainId keyCount senders
        { r1 with tests := r1.tests ++
            [{ test with senders := senders.take configTest.config.senders.toNat }] }
        rest

/-- `Runner.PrepareTests`. -/
def PrepareTests (r : Runner) : Option (Runner × Except String Unit) :=
  prepareTestsLoop r.config.app.node.chainId
    r.config.senders.privateKeys.length r.senders
    { r with totalTxsCount := 0 } r.config.tests

/-- Modelled from the spec: the `handleErrors` helper called throughout
`Runner.Start` is not among the provided sources; per the spec, every
non-fatal error is appended to the suite's aggregated error list and the
run continues. -/
def handleErrors (errors : List String) : Except String Unit → List String
  | .ok _ => errors
  | .error e => errors ++ [e]

/-- The `handleErrors(&r.errors, r.PrepareTests())` step of `Runner.Start`. -/
def startPrepareTests (r : Runner) : Option Runner :=
  match PrepareTests r with
  | none => none
  | some (r', e) => some { r' with errors := handleErrors r'.errors e }

/-! ## Histogram rendering loop (`Runner.getSendOutputData`) -/

/-- The block-distance rendering loop of `Runner.getSendOutputData`
(`for len(processedBlocks) != len(hist) { ... i++ }`), with explicit fuel:
the Go loop runs unboundedly from key 0 upward until every histogram key
has been visited. -/
def outputBlockRows (hist : List (Nat × Nat)) :
    Nat → List Nat → Nat → List (Nat × Nat)
  | _, _, 0 => []
  | i, processed, fuel + 1 =>
    if processed.length = hist.length then []
    else if histMem hist i then
      (i, histGet hist i) :: outputBlockRows hist (i + 1) (i :: processed) fuel
    else
      (i, 0) :: outputBlockRows hist (i + 1) processed fuel

/-! ## Claim C1: unresolved artifacts and metrics aggregation -/

/-- A test with one submitted artifact whose receipt slot is still nil when
collection ended: the retry budget was exhausted without resolution. -/
def tUnresolved : Test :=
  { tC4 with
      senders := [{ address := "0xA", nonce := 5 }],
      senderTransactions :=
        [("0xA", [{ clientTransaction := some
                      { tx := { nonce := 5, toAddr := "0xB", value := 0,
                                gasFeeCap := 2, gasTipCap := 1, data := [],
                                gas := 21000 }, sig := 7 },
                    receipt := none, sender := "0xA", status := false,
                    sentBlock := 3, minedBlock := 0, sentTimestamp := 0 }])],
      blocks := [] }

/-- C1: metrics aggregation over a test that still contains an unresolved
artifact does not exclude it and complete — the transaction loop
dereferences the nil receipt (`tx.receipt.BlockNumber`) and panics,
modelled as `none`. -/
theorem unresolved_artifact_crashes_metrics :
    CollectMetrics tUnresolved = none := by rfl

/-! ## Claim C6: zero-division guards -/

theorem collectMetricsTx_isSome (blocks : List Block) (acc : MetricsAcc)
    (tx : Transaction) (h : tx.receipt.isSome) :
    (collectMetricsTx blocks acc tx).isSome := by
  cases hr : tx.receipt with
  | none => rw [hr] at h; simp at h
  | some receipt => simp [collectMetricsTx, hr]

theorem collectMetricsTxs_some (blocks : List Block) :
    ∀ (txs : List Transaction) (acc : MetricsAcc),
      (∀ tx ∈ txs, tx.receipt.isSome) →
      ∃ acc', collectMetricsTxs blocks acc txs = some acc' := by
  intro txs
  induction txs with
  | nil => intro acc _; exact ⟨acc, rfl⟩
  | cons tx txs ih =>
    intro acc h
    cases hc : collectMetricsTx blocks acc tx with
    | none =>
      have := collectMetricsTx_isSome blocks acc tx
        (h tx (List.mem_cons_self tx txs))
      rw [hc] at this
      simp at this
    | some acc1 =>
      obtain ⟨acc', h2⟩ := ih acc1 (fun x hx => h x (List.mem_cons_of_mem tx hx))
      exact ⟨acc', by simp [collectMetricsTxs, hc, h2]⟩

theorem collectMetricsAll_some (blocks : List Block) :
    ∀ (entries : List (String × List Transaction)) (acc : MetricsAcc),
      (∀ p ∈ entries, ∀ tx ∈ p.2, tx.receipt.isSome) →
      ∃ acc', collectMetricsAll blocks acc entries = some acc' := by
  intro entries
  induction entries with
  | nil => intro acc _; exact ⟨acc, rfl⟩
  | cons e rest ih =>
    intro acc h
    obtain ⟨acc1, h1⟩ := collectMetricsTxs_some blocks e.2 acc
      (h e (List.mem_cons_self e rest))
    obtain ⟨acc', h2⟩ := ih acc1 (fun p hp => h p (List.mem_cons_of_mem e hp))
    exact ⟨acc', by simp [collectMetricsAll, h1, h2]⟩

theorem collectMetricsAll_empty (blocks : List Block) :
    ∀ (entries : List (String × List Transaction)) (acc : MetricsAcc),
      (∀ p ∈ entries, p.2 = []) →
      collectMetricsAll blocks acc entries = some acc := by
  intro entries
  induction entries with
  | nil => intro acc _; rfl
  | cons e rest ih =>
    intro acc h
    have he : e.2 = [] := h e (List.mem_cons_self e rest)
    have hr := ih acc (fun p hp => h p (List.mem_cons_of_mem e hp))
    simp [collectMetricsAll, he, collectMetricsTxs, hr]

/-- C6: metrics aggregation never divides by zero — with an empty collected
block list the per-block averages are 0 (no error or crash), and with zero
resolved artifacts the average latency and average price are 0.  (The
transaction loop requires every present artifact to be resolved, as
established by C1.) -/
theorem metrics_zero_division_guards (t : Test)
    (hres : ∀ p ∈ t.senderTransactions, ∀ tx ∈ p.2, tx.receipt.isSome) :
    (CollectMetrics t).isSome ∧
    (t.blocks = [] →
      (CollectMetrics t).map Metrics.avgTxsPerBlock = some 0 ∧
      (CollectMetrics t).map Metrics.avgGasUsedPerBlock = some 0) ∧
    ((∀ p ∈ t.senderTransactions, p.2 = []) →
      (CollectMetrics t).map Metrics.avgTimeToInclude = some 0 ∧
      (CollectMetrics t).map Metrics.avgGasPricePerTx = some 0) := by
  obtain ⟨acc, hacc⟩ :=
    collectMetricsAll_some t.blocks t.senderTransactions initMetricsAcc hres
  refine ⟨by simp [CollectMetrics, hacc], fun hb => ?_, fun hempty => ?_⟩
  · have hacc2 : collectMetricsAll [] initMetricsAcc t.senderTransactions =
        some acc := by
      rw [← hb]; exact hacc
    simp [CollectMetrics, hb, hacc2]
  · have hinit := collectMetricsAll_empty t.blocks t.senderTransactions
      initMetricsAcc hempty
    simp [CollectMetrics, hinit, show initMetricsAcc.totalTxCount = 0 from rfl]

/-- The C6 witness test: one identity, no artifacts, no collected blocks. -/
def tMetricsW : Test :=
  { tC4 with senders := [{ address := "0xA", nonce := 5 }],
             senderTransactions := [("0xA", [])], blocks := [] }

/-- C6 witness: on the empty-collection test, aggregation succeeds and all
four guarded averages are zero. -/
theorem metrics_zero_division_guards_witness :
    (CollectMetrics tMetricsW).isSome ∧
    (tMetricsW.blocks = [] →
      (CollectMetrics tMetricsW).map Metrics.avgTxsPerBlock = some 0 ∧
      (CollectMetrics tMetricsW).map Metrics.avgGasUsedPerBlock = some 0) ∧
    ((∀ p ∈ tMetricsW.senderTransactions, p.2 = []) →
      (CollectMetrics tMetricsW).map Metrics.avgTimeToInclude = some 0 ∧
      (CollectMetrics tMetricsW).map Metrics.avgGasPricePerTx = some 0) :=
  metrics_zero_division_guards tMetricsW (by decide)

/-! ## Claim C7: idempotence of outcome resolution -/

/-- A single sweep leaves every already-resolved artifact untouched: the
`if txSent.receipt != nil { continue }` guard fires before any fetch. -/
theorem sweepReceipts_preserves_resolved (fetch : SignedTx → Option Receipt) :
    ∀ (txs : List Transaction) (blocks : List String) (collected : Nat)
      (txs' : List Transaction) (blocks' : List String) (collected' : Nat),
      sweepReceipts fetch txs blocks collected =
        some (txs', blocks', collected') →
      ∀ (i : Nat) (tx : Transaction) (r : Receipt),
        txs[i]? = some tx → tx.receipt = some r → txs'[i]? = some tx := by
  intro txs
  induction txs with
  | nil =>
    intro blocks collected txs' blocks' collected' h i tx r hi _
    simp at hi
  | cons tx0 rest ih =>
    intro blocks collected txs' blocks' collected' h i tx r hi hr
    cases i with
    | zero =>
      simp only [List.getElem?_cons_zero, Option.some.injEq] at hi
      subst hi
      cases hrec : sweepReceipts fetch rest blocks collected with
      | none => simp [sweepReceipts, hr, hrec] at h
      | some p =>
        obtain ⟨rest', b2, c2⟩ := p
        simp only [sweepReceipts, hr, hrec, Option.some.injEq,
          Prod.mk.injEq] at h
        rw [← h.1]
        simp
    | succ n =>
      simp only [List.getElem?_cons_succ] at hi
      cases hrcpt : tx0.receipt with
      | some r0 =>
        cases hrec : sweepReceipts fetch rest blocks collected with
        | none => simp [sweepReceipts, hrcpt, hrec] at h
        | some p =>
          obtain ⟨rest', b2, c2⟩ := p
          simp only [sweepReceipts, hrcpt, hrec, Option.some.injEq,
            Prod.mk.injEq] at h
          rw [← h.1]
          simp only [List.getElem?_cons_succ]
          exact ih blocks collected rest' b2 c2 hrec n tx r hi hr
      | none =>
        cases hct : tx0.clientTransaction with
        | none => simp [sweepReceipts, hrcpt, hct] at h
        | some st =>
          cases hf : fetch st with
          | none =>
            cases hrec : sweepReceipts fetch rest blocks collected with
            | none => simp [sweepReceipts, hrcpt, hct, hf, hrec] at h
            | some p =>
              obtain ⟨rest', b2, c2⟩ := p
              simp only [sweepReceipts, hrcpt, hct, hf, hrec,
                Option.some.injEq, Prod.mk.injEq] at h
              rw [← h.1]
              simp only [List.getElem?_cons_succ]
              exact ih blocks collected rest' b2 c2 hrec n tx r hi hr
          | some rcpt =>
            cases hrec : sweepReceipts fetch rest
                (insertBlockHash blocks rcpt.blockHash) (collected + 1) with
            | none => simp [sweepReceipts, hrcpt, hct, hf, hrec] at h
            | some p =>
              obtain ⟨rest', b2, c2⟩ := p
              simp only [sweepReceipts, hrcpt, hct, hf, hrec,
                Option.some.injEq, Prod.mk.injEq] at h
              rw [← h.1]
              simp only [List.getElem?_cons_succ]
              exact ih _ _ rest' b2 c2 hrec n tx r hi hr

/-- C7: outcome resolution is idempotent — across the whole bounded retry
loop, an artifact whose receipt is already set is never modified by any
subsequent sweep, so the outcome slot transitions at most once from nil
to resolved. -/
theorem resolved_outcome_never_overwritten
    (fetch : Nat → SignedTx → Option Receipt) (total : Nat) :
    ∀ (rem attempt : Nat) (txs : List Transaction) (blocks : List String)
      (collected : Nat) (txs' : List Transaction) (blocks' : List String)
      (collected' : Nat),
      collectSenderLoop fetch total attempt rem txs blocks collected =
        some (txs', blocks', collected') →
      ∀ (i : Nat) (tx : Transaction) (r : Receipt),
        txs[i]? = some tx → tx.receipt = some r → txs'[i]? = some tx := by
  intro rem
  induction rem with
  | zero =>
    intro attempt txs blocks collected txs' blocks' collected' h i tx r hi hr
    simp only [collectSenderLoop, Option.some.injEq, Prod.mk.injEq] at h
    rw [← h.1]
    exact hi
  | succ rem ih =>
    intro attempt txs blocks collected txs' blocks' collected' h i tx r hi hr
    cases hs : sweepReceipts (fetch attempt) txs blocks collected with
    | none => simp [collectSenderLoop, hs] at h
    | some p =>
      obtain ⟨txs1, b1, c1⟩ := p
      have hmid := sweepReceipts_preserves_resolved (fetch attempt) txs blocks
        collected txs1 b1 c1 hs i tx r hi hr
      by_cases hc : c1 = total
      · simp only [collectSenderLoop, hs, if_pos hc, Option.some.injEq,
          Prod.mk.injEq] at h
        rw [← h.1]
        exact hmid
      · simp only [collectSenderLoop, hs, if_neg hc] at h
        exact ih (attempt + 1) txs1 b1 c1 txs' blocks' collected' h i tx r
          hmid hr

/-- Witness artifacts for C7: one resolved, one pending that resolves during
the run. -/
def txResolvedW : Transaction :=
  { clientTransaction := some
      { tx := { nonce := 5, toAddr := "0xB", value := 0, gasFeeCap := 2,
                gasTipCap := 1, data := [], gas := 21000 }, sig := 7 },
    receipt := some { blockNumber := 7, status := 1, effectiveGasPrice := 3,
                      blockHash := "hB" },
    sender := "0xA", status := false, sentBlock := 3, minedBlock := 0,
    sentTimestamp := 0 }

def txPendingW : Transaction :=
  { clientTransaction := some
      { tx := { nonce := 6, toAddr := "0xB", value := 0, gasFeeCap := 2,
                gasTipCap := 1, data := [], gas := 21000 }, sig := 7 },
    receipt := none, sender := "0xA", status := false, sentBlock := 3,
    minedBlock := 0, sentTimestamp := 0 }

/-- The receipt the C7 witness oracle serves for the pending artifact. -/
def receiptNewW : Receipt :=
  { blockNumber := 9, status := 1, effectiveGasPrice := 4, blockHash := "hC" }

/-- C7 witness: a full 10-attempt collection run that resolves the pending
artifact leaves the already-resolved artifact exactly as it was. -/
theorem resolved_outcome_never_overwritten_witness :
    (([txResolvedW, { txPendingW with receipt := some receiptNewW }] :
        List Transaction))[0]? = some txResolvedW :=
  resolved_outcome_never_overwritten (fun _ _ => some receiptNewW) 2 10 0
    [txResolvedW, txPendingW] [] 0
    [txResolvedW, { txPendingW with receipt := some receiptNewW }] ["hC"] 1
    (by decide) 0 txResolvedW
    { blockNumber := 7, status := 1, effectiveGasPrice := 3, blockHash := "hB" }
    rfl rfl

/-! ## Claim C8: insufficient identities for one test case -/

/-- `PrepareTests` on a test list whose prefix is satisfiable and whose next
entry requests more identities than keys exist: the loop prepares exactly
the prefix, then returns `NotEnoughSenders`, leaving the error list as it
was. -/
theorem prepareTestsLoop_insufficient (chainId : Int) (keyCount : Nat)
    (senders : List Sender) :
    ∀ (pre : List (String × TestEntity)) (r : Runner)
      (bad : String × TestEntity) (rest : List (String × TestEntity)),
      (∀ e ∈ pre, 0 ≤ e.2.config.senders ∧
        e.2.config.senders ≤ (keyCount : Int) ∧
        e.2.config.senders ≤ (senders.length : Int)) →
      bad.2.config.senders > (keyCount : Int) →
      ∃ r', prepareTestsLoop chainId keyCount senders r (pre ++ bad :: rest) =
          some (r', .error NotEnoughSenders) ∧
        r'.tests.length = r.tests.length + pre.length ∧
        r'.errors = r.errors := by
  intro pre
  induction pre with
  | nil =>
    intro r bad rest _ hbad
    obtain ⟨name, entity⟩ := bad
    refine ⟨{ r with totalTxsCount :=
        r.totalTxsCount + (NewTest chainId name entity).txsCount }, ?_, rfl, rfl⟩
    simp [prepareTestsLoop, hbad]
  | cons p pre' ih =>
    intro r bad rest hpre hbad
    obtain ⟨name, entity⟩ := p
    have hp := hpre (name, entity) (List.mem_cons_self _ _)
    have h1 : ¬(entity.config.senders > (keyCount : Int)) := not_lt.mpr hp.2.1
    have h2 : ¬(entity.config.senders < 0) := not_lt.mpr hp.1
    have h3 : ¬((senders.length : Int) < entity.config.senders) :=
      not_lt.mpr hp.2.2
    obtain ⟨r', hr', hlen, herr⟩ := ih
      { r with
          totalTxsCount :=
            r.totalTxsCount + (NewTest chainId name entity).txsCount,
          tests := r.tests ++
            [{ NewTest chainId name entity with
                 senders := senders.take entity.config.senders.toNat }] }
      bad rest (fun e he => hpre e (List.mem_cons_of_mem _ he)) hbad
    refine ⟨r', ?_, ?_, herr⟩
    · simp only [List.cons_append, prepareTestsLoop, if_neg h1, if_neg h2,
        if_neg h3]
      exact hr'
    · rw [hlen]
      simp
      omega

/-- C8 amended: when one configured test case requests more identities than
are configured, the insufficiency is recorded once in the suite's error
list, but preparation stops at that test: only the test cases iterated
before it are prepared; the offending test and all later siblings are not
prepared and produce no results. -/
theorem insufficient_senders_stops_preparation (r : Runner)
    (pre : List (String × TestEntity)) (bad : String × TestEntity)
    (rest : List (String × TestEntity))
    (hcfg : r.config.tests = pre ++ bad :: rest)
    (hpre : ∀ e ∈ pre, 0 ≤ e.2.config.senders ∧
      e.2.config.senders ≤ (r.config.senders.privateKeys.length : Int) ∧
      e.2.config.senders ≤ (r.senders.length : Int))
    (hbad : bad.2.config.senders >
      (r.config.senders.privateKeys.length : Int))
    (hr : r.tests = []) :
    (startPrepareTests r).map (fun x => x.tests.length) = some pre.length ∧
    (startPrepareTests r).map Runner.errors =
      some (r.errors ++ [NotEnoughSenders]) := by
  obtain ⟨r', hr', hlen, herr⟩ := prepareTestsLoop_insufficient
    r.config.app.node.chainId r.config.senders.privateKeys.length r.senders
    pre { r with totalTxsCount := 0 } bad rest hpre hbad
  have hP : PrepareTests r = some (r', .error NotEnoughSenders) := by
    rw [PrepareTests, hcfg]
    exact hr'
  have hlen' : r'.tests.length = pre.length := by
    simpa [hr] using hlen
  simp [startPrepareTests, hP, handleErrors, hlen', herr]

/-- Witness configuration: the first test case requests 2 identities while
only one key is configured; a sibling test follows it. -/
def entityBadW : TestEntity :=
  { type := "send",
    config := { senders := 2, duration := 1, tps := 1,
                contract := { address := "",
                              function := { name := "", abi := "", params := [] } },
                dataSize := 0, value := "" } }

def entityGoodW : TestEntity :=
  { type := "send",
    config := { senders := 1, duration := 1, tps := 1,
                contract := { address := "",
                              function := { name := "", abi := "", params := [] } },
                dataSize := 0, value := "" } }

def rC8 : Runner :=
  { config := { app := { node := { rpcUrl := "", chainId := 1 } },
                tests := [("bad", entityBadW), ("good", entityGoodW)],
                senders := { privateKeys := ["k1"] } },
    tests := [], senders := [{ address := "0xA", nonce := 0 }],
    totalTxsCount := 0, errors := [] }

/-- C8 counterexample: two test cases are configured and the insufficiency
is recorded, yet zero tests are prepared — the sibling test case is neither
prepared nor run and gets no result, contradicting the claim that every
sibling still runs. -/
theorem insufficient_senders_sibling_unprepared :
    rC8.config.tests.length = 2 ∧
    (startPrepareTests rC8).map (fun x => x.tests.length) = some 0 ∧
    (startPrepareTests rC8).map Runner.errors = some [NotEnoughSenders] := by
  decide

/-- C8 witness: the amended statement at the concrete two-test
configuration. -/
theorem insufficient_senders_stops_preparation_witness :
    (startPrepareTests rC8).map (fun x => x.tests.length) = some 0 ∧
    (startPrepareTests rC8).map Runner.errors =
      some (rC8.errors ++ [NotEnoughSenders]) :=
  insufficient_senders_stops_preparation rC8 [] ("bad", entityBadW)
    [("good", entityGoodW)] rfl (by simp) (by decide) rfl

/-! ## Claim C10: histogram key wrap-around and the rendering loop -/

/-- A test with one resolved artifact whose inclusion height is `incl` and
whose recorded submission height is `sent`. -/
def singleTxTest (incl sent : Nat) : Test :=
  { tC4 with
      senders := [{ address := "0xA", nonce := 5 }],
      senderTransactions :=
        [("0xA", [{ clientTransaction := some
                      { tx := { nonce := 5, toAddr := "0xB", value := 0,
                                gasFeeCap := 2, gasTipCap := 1, data := [],
                                gas := 21000 }, sig := 7 },
                    receipt := some { blockNumber := incl, status := 1,
                                      effectiveGasPrice := 0,
                                      blockHash := "hB" },
                    sender := "0xA", status := false, sentBlock := sent,
                    minedBlock := 0, sentTimestamp := 0 }])],
      blocks := [] }

/-- Once every histogram key is processed, the rendering loop stops. -/
theorem outputBlockRows_stop (hist : List (Nat × Nat)) (i : Nat)
    (processed : List Nat) (fuel : Nat)
    (h : processed.length = hist.length) :
    outputBlockRows hist i processed fuel = [] := by
  cases fuel with
  | zero => rfl
  | succ fuel => simp [outputBlockRows, h]

/-- On a single-key histogram the rendering loop emits one row per key from
`i` up to the key `i + d`, then stops: `d + 1` rows in total. -/
theorem outputBlockRows_single_len (c : Nat) :
    ∀ (d i fuel : Nat), d + 1 ≤ fuel →
      (outputBlockRows [(i + d, c)] i [] fuel).length = d + 1 := by
  intro d
  induction d with
  | zero =>
    intro i fuel hf
    obtain ⟨f, rfl⟩ : ∃ f, fuel = f + 1 := ⟨fuel - 1, by omega⟩
    simp [outputBlockRows, histMem, outputBlockRows_stop]
  | succ d ih =>
    intro i fuel hf
    obtain ⟨f, rfl⟩ : ∃ f, fuel = f + 1 := ⟨fuel - 1, by omega⟩
    have hne : ¬(i + (d + 1) = i) := by omega
    have hkey : i + (d + 1) = (i + 1) + d := by omega
    simp only [outputBlockRows, List.length_nil, List.length_cons,
      Nat.zero_eq, histMem]
    rw [if_neg (by simp), if_neg (by simp [hne, histMem])]
    simp only [List.length_cons]
    rw [hkey]
    rw [ih (i + 1) f (by omega)]

/-- C10: the histogram key is computed by unsigned 64-bit subtraction — for
a resolved artifact with inclusion height below its recorded submission
height the key wraps modulo `2^64` to the huge value
`2^64 + incl - sent`, and the rendering loop that scans keys `0, 1, 2, …`
until all histogram keys are visited emits one row for every key up to the
wrapped key. -/
theorem histogram_key_wraps_u64 (incl sent : Nat)
    (hlt : incl < sent) (hsent : sent < U64) :
    (CollectMetrics (singleTxTest incl sent)).map
        Metrics.avgTxsBlockDiffIncluded =
      some [(U64 + incl - sent, 1)] ∧
    (outputBlockRows [(U64 + incl - sent, 1)] 0 []
        (U64 + incl - sent + 1)).length = U64 + incl - sent + 1 := by
  have hkey : u64sub incl sent = U64 + incl - sent := by
    have h1 : incl % U64 = incl := Nat.mod_eq_of_lt (lt_trans hlt hsent)
    have h2 : sent % U64 = sent := Nat.mod_eq_of_lt hsent
    unfold u64sub
    rw [h1, h2, Nat.mod_eq_of_lt (by unfold U64 at *; omega)]
    omega
  constructor
  · rw [← hkey]
    rfl
  · have hlen := outputBlockRows_single_len 1 (U64 + incl - sent) 0
      (U64 + incl - sent + 1) (le_refl _)
    simpa using hlen

/-- C10 witness: inclusion height 0, submission height 1 — the histogram
key is `2^64 - 1` and the rendering loop emits `2^64` rows. -/
theorem histogram_key_wraps_u64_witness :
    (CollectMetrics (singleTxTest 0 1)).map Metrics.avgTxsBlockDiffIncluded =
      some [(U64 + 0 - 1, 1)] ∧
    (outputBlockRows [(U64 + 0 - 1, 1)] 0 [] (U64 + 0 - 1 + 1)).length =
      U64 + 0 - 1 + 1 :=
  histogram_key_wraps_u64 0 1 (by decide) (by decide)

end Blockrush
